import Mathlib

/-!
Verification development for the hazard-detection benchmark scripts
(`hazard_detection_benchmark.py`, the OpenAI single-pass assessor, and
`gemini_hazard_benchmark.py`, the two-strategy Gemini benchmark).

Python strings are modelled as `List Char`, Python dicts arising from
`json.loads` as association lists (with last-binding-wins lookup, matching
Python's overwrite semantics for duplicate keys), and `json.loads` itself as
an executable recursive-descent parser over strict JSON.  Model calls are
oracles (`CallOutcome`): the reply text when the transport succeeds, or the
exception message when the provider call raises.
-/

namespace HazardBench

/-! ### Python string primitives -/

/-- Whitespace stripped by Python's `str.strip()` (the ASCII cases). -/
def pyWs (c : Char) : Bool :=
  c = ' ' || c = '\t' || c = '\n' || c = '\r' || c = '\x0b' || c = '\x0c'

/-- Left part of Python `str.strip()`. -/
def lstrip (s : List Char) : List Char := s.dropWhile pyWs

/-- Right part of Python `str.strip()`. -/
def rstrip (s : List Char) : List Char := (s.reverse.dropWhile pyWs).reverse

/-- Python `s.strip()`. -/
def pyStrip (s : List Char) : List Char := rstrip (lstrip s)

/-- Index of the first occurrence of `pat` in `s` (Python `s.find(pat)` when
the result is non-negative; `none` models the `-1` sentinel). -/
def findSub? (pat : List Char) : List Char → Option Nat
  | [] => if pat.isEmpty then some 0 else none
  | c :: rest =>
    if pat.isPrefixOf (c :: rest) then some 0
    else (findSub? pat rest).map (· + 1)

/-- Python `pat in s`. -/
def occursIn (pat s : List Char) : Bool := (findSub? pat s).isSome

/-- Python `s.find(pat, start)` with its `-1` sentinel. -/
def pyFindFrom (s pat : List Char) (start : Nat) : Int :=
  match findSub? pat (s.drop start) with
  | some i => ((start + i : Nat) : Int)
  | none => -1

/-- Normalise one endpoint of a Python slice `s[a:b]`: negative indices count
from the end, and everything is clamped into `[0, len]`. -/
def pySliceIdx (len : Nat) (i : Int) : Nat :=
  if i < 0 then ((len : Int) + i).toNat else min i.toNat len

/-- Python `s[a:b]` (unit step). -/
def pySlice (s : List Char) (a b : Int) : List Char :=
  (s.take (pySliceIdx s.length b)).drop (pySliceIdx s.length a)

/-- Python `s.replace(pat, '')`: remove every (left-to-right, non-overlapping)
occurrence of `pat`.  Both call sites in the source replace with `''`. -/
def removeAll (pat : List Char) : List Char → List Char
  | [] => []
  | c :: rest =>
    if !pat.isEmpty && pat.isPrefixOf (c :: rest) then
      removeAll pat (rest.drop (pat.length - 1))
    else
      c :: removeAll pat rest
termination_by s => s.length
decreasing_by
· simp only [List.length_cons, List.length_drop]; omega
· simp only [List.length_cons]; omega

/-! ### JSON values and `json.loads`

The parser implements strict JSON as accepted by Python's `json` module.
Deliberate abstractions: numbers live in `ℚ` (exact, instead of Python's
binary floats), the non-standard `NaN`/`Infinity` extension and `\u`
surrogate-pair combining are not modelled, and the text of
`JSONDecodeError` messages is abstracted (no claim depends on it). -/

/-- JSON whitespace accepted by Python's `json.loads`. -/
def jsonWs (c : Char) : Bool := c = ' ' || c = '\t' || c = '\n' || c = '\r'

def skipWs (s : List Char) : List Char := s.dropWhile jsonWs

inductive Json where
  | str : List Char → Json
  | num : ℚ → Json
  | bool : Bool → Json
  | null : Json
  | arr : List Json → Json
  | obj : List (List Char × Json) → Json

/-- The rational denoted by an integer literal; the parser builds every
integer JSON number through this cast. -/
def intRat (i : ℤ) : ℚ := (i : ℚ)

def escChar (c : Char) : Option Char :=
  if c = '"' then some '"'
  else if c = '\\' then some '\\'
  else if c = '/' then some '/'
  else if c = 'b' then some '\x08'
  else if c = 'f' then some '\x0c'
  else if c = 'n' then some '\n'
  else if c = 'r' then some '\r'
  else if c = 't' then some '\t'
  else none

def hexVal (c : Char) : Option Nat :=
  if '0' ≤ c ∧ c ≤ '9' then some (c.toNat - '0'.toNat)
  else if 'a' ≤ c ∧ c ≤ 'f' then some (c.toNat - 'a'.toNat + 10)
  else if 'A' ≤ c ∧ c ≤ 'F' then some (c.toNat - 'A'.toNat + 10)
  else none

/-- Lex the body of a JSON string, after the opening quote; returns the
decoded content and the input after the closing quote. -/
def parseStringBody : Nat → List Char → Option (List Char × List Char)
  | 0, _ => none
  | _ + 1, [] => none
  | fuel + 1, c :: rest =>
    if c = '"' then some ([], rest)
    else if c = '\\' then
      match rest with
      | [] => none
      | e :: rest2 =>
        if e = 'u' then
          match rest2 with
          | h1 :: h2 :: h3 :: h4 :: rest3 =>
            match hexVal h1, hexVal h2, hexVal h3, hexVal h4 with
            | some a, some b, some c2, some d =>
              (parseStringBody fuel rest3).map
                (fun p => (Char.ofNat (((a * 16 + b) * 16 + c2) * 16 + d) :: p.1, p.2))
            | _, _, _, _ => none
          | _ => none
        else
          match escChar e with
          | some d => (parseStringBody fuel rest2).map (fun p => (d :: p.1, p.2))
          | none => none
    else if c.toNat < 32 then none
    else (parseStringBody fuel rest).map (fun p => (c :: p.1, p.2))

def digitVal (c : Char) : Option Nat :=
  if '0' ≤ c ∧ c ≤ '9' then some (c.toNat - '0'.toNat) else none

def takeDigits : List Char → List Nat × List Char
  | [] => ([], [])
  | c :: rest =>
    match digitVal c with
    | some d => let p := takeDigits rest; (d :: p.1, p.2)
    | none => ([], c :: rest)

def natOfDigits (ds : List Nat) : Nat := ds.foldl (fun a d => a * 10 + d) 0

/-- Parse a JSON number (`-? (0 | [1-9][0-9]*) frac? exp?`), as Python's
`json` lexer does, including the leading-zero restriction. -/
def parseNumber (s : List Char) : Option (ℚ × List Char) :=
  let signed := match s with
    | '-' :: r => (true, r)
    | _ => (false, s)
  match signed.2 with
  | [] => none
  | c :: r =>
    match digitVal c with
    | none => none
    | some d =>
      let intPart :=
        if c = '0' then (([d] : List Nat), r) else (let p := takeDigits r; (d :: p.1, p.2))
      let base : ℚ := intRat (natOfDigits intPart.1)
      let withFrac : Option (ℚ × List Char) :=
        match intPart.2 with
        | '.' :: r2 =>
          let p := takeDigits r2
          if p.1.isEmpty then none
          else some (base + intRat (natOfDigits p.1) / intRat ((10 : ℤ) ^ p.1.length), p.2)
        | _ => some (base, intPart.2)
      match withFrac with
      | none => none
      | some (v1, s3) =>
        let withExp : Option (ℚ × List Char) :=
          match s3 with
          | e :: r3 =>
            if e = 'e' ∨ e = 'E' then
              let esigned := match r3 with
                | '+' :: r5 => (false, r5)
                | '-' :: r5 => (true, r5)
                | _ => (false, r3)
              let p := takeDigits esigned.2
              if p.1.isEmpty then none
              else
                let k := natOfDigits p.1
                some ((if esigned.1 then v1 / intRat ((10 : ℤ) ^ k)
                       else v1 * intRat ((10 : ℤ) ^ k)), p.2)
            else some (v1, s3)
          | [] => some (v1, [])
        match withExp with
        | none => none
        | some (v2, s4) => some ((if signed.1 then -v2 else v2), s4)

mutual

/-- Parse one JSON value (leading whitespace allowed); fuel-based recursion,
`jsonLoads` supplies enough fuel for any input. -/
def parseVal : Nat → List Char → Option (Json × List Char)
  | 0, _ => none
  | fuel + 1, s =>
    match skipWs s with
    | [] => none
    | '\x7b' :: r =>
      match skipWs r with
      | '\x7d' :: r2 => some (.obj [], r2)
      | _ => (parseMembers fuel r).map (fun p => (.obj p.1, p.2))
    | '[' :: r =>
      match skipWs r with
      | ']' :: r2 => some (.arr [], r2)
      | _ => (parseItems fuel r).map (fun p => (.arr p.1, p.2))
    | '"' :: r => (parseStringBody (r.length + 1) r).map (fun p => (.str p.1, p.2))
    | 't' :: r => if "rue".data.isPrefixOf r then some (.bool true, r.drop 3) else none
    | 'f' :: r => if "alse".data.isPrefixOf r then some (.bool false, r.drop 4) else none
    | 'n' :: r => if "ull".data.isPrefixOf r then some (.null, r.drop 3) else none
    | s' => (parseNumber s').map (fun p => (.num p.1, p.2))

/-- Parse the members of a JSON object, after the opening brace (nonempty
case). -/
def parseMembers : Nat → List Char → Option (List (List Char × Json) × List Char)
  | 0, _ => none
  | fuel + 1, s =>
    match skipWs s with
    | '"' :: r =>
      match parseStringBody (r.length + 1) r with
      | none => none
      | some (k, r1) =>
        match skipWs r1 with
        | ':' :: r2 =>
          match parseVal fuel r2 with
          | none => none
          | some (v, r3) =>
            match skipWs r3 with
            | ',' :: r4 => (parseMembers fuel r4).map (fun p => ((k, v) :: p.1, p.2))
            | '\x7d' :: r4 => some ([(k, v)], r4)
            | _ => none
        | _ => none
    | _ => none

/-- Parse the items of a JSON array, after the opening bracket (nonempty
case). -/
def parseItems : Nat → List Char → Option (List Json × List Char)
  | 0, _ => none
  | fuel + 1, s =>
    match parseVal fuel s with
    | none => none
    | some (v, r) =>
      match skipWs r with
      | ',' :: r2 => (parseItems fuel r2).map (fun p => (v :: p.1, p.2))
      | ']' :: r2 => some ([v], r2)
      | _ => none

end

/-- Python's `json.loads`: parse one value and require only whitespace after
it. -/
def jsonLoads (s : List Char) : Option Json :=
  match parseVal (s.length + 1) s with
  | some (j, rest) => if (skipWs rest).isEmpty then some j else none
  | none => none

/-! ### Code-fence stripping and extraction -/

def tickJson : List Char := "```json".data

def ticks : List Char := "```".data

/-- The fence-stripping block of `gemini_hazard_benchmark.py`, repeated
verbatim at lines 93-96 (method 1), 173-176 and 208-211 (method 2) and
307-310 (evaluator):

    if "```json" in response_text:
        start = response_text.find("```json") + 7
        end = response_text.find("```", start)
        response_text = response_text[start:end].strip()

`findSub? tickJson s` is `some idx` exactly when `"```json" in s`, and `idx`
is then the value of `find`. -/
def geminiStrip (s : List Char) : List Char :=
  match findSub? tickJson s with
  | none => s
  | some idx =>
    pyStrip (pySlice s ((idx + 7 : Nat) : Int) (pyFindFrom s ticks (idx + 7)))

/-- A Gemini-side extraction: `response.text.strip()`, fence-strip, then
`json.loads` (`none` = `JSONDecodeError`). -/
def geminiExtract (t : List Char) : Option Json :=
  jsonLoads (geminiStrip (pyStrip t))

/-- `hazard_detection_benchmark.py` lines 85-86:

    if content.startswith('```json'):
        content = content.replace('```json', '').replace('```', '').strip()
-/
def openaiStrip (content : List Char) : List Char :=
  if tickJson.isPrefixOf content then
    pyStrip (removeAll ticks (removeAll tickJson content))
  else content

/-- The single-pass extraction: strip, fence-strip, `json.loads`. -/
def openaiExtract (t : List Char) : Option Json :=
  jsonLoads (openaiStrip (pyStrip t))

/-! ### Model-call boundary and Python dicts -/

/-- Outcome of one provider call: the reply text, or the message of the
exception the call raised (transport failure). -/
inductive CallOutcome where
  | ok : List Char → CallOutcome
  | raised : List Char → CallOutcome

/-- Dict lookup on a parsed-JSON association list.  Python keeps the last
binding for a duplicated key, so the rightmost binding wins. -/
def lookupLast (kvs : List (List Char × Json)) (k : List Char) : Option Json :=
  match kvs with
  | [] => none
  | (k', v) :: rest =>
    match lookupLast rest k with
    | some r => some r
    | none => if k' = k then some v else none

/-- Python `d.get(k)` (`None` when absent is rendered by the caller). -/
def Json.get (j : Json) (k : List Char) : Option Json :=
  match j with
  | .obj kvs => lookupLast kvs k
  | _ => none

/-- Python `d.get(k, default)`. -/
def Json.getD (j : Json) (k : List Char) (d : Json) : Json := (Json.get j k).getD d

/-- The message text of a `JSONDecodeError` is abstracted to a representative
constant: the Python message reports positions (line/column/char), never the
offending document, and no claim depends on its exact text. -/
def decodeErrMsg : List Char := "Expecting value: line 1 column 1 (char 0)".data

/-! ### Single-pass assessor (`HazardDetectionBenchmark.analyze_hazard_image`)

Lines 54-112: one GPT-4o call; fence-strip and `json.loads` the reply; on
success the parsed dict is returned with `timestamp`/`model`/`usage` entries
assigned into it (modelled by `meta`, appended with last-binding-wins
lookup); `json.JSONDecodeError` yields the error dict of lines 101-106
(which carries the fence-stripped text as `raw_response`); any other
exception (the transport raising, or the parsed value not being a dict, so
that `result['timestamp'] = ...` raises `TypeError`) yields the error dict
of lines 108-112. -/

def analyze_hazard_image (meta : List (List Char × Json)) (call : CallOutcome) : Json :=
  match call with
  | .raised m =>
    .obj [("error".data, .str ("API call failed: ".data ++ m)),
          ("confidence_level".data, .str "error".data),
          ("mode".data, .str "error".data)]
  | .ok t =>
    let content := openaiStrip (pyStrip t)
    match jsonLoads content with
    | none =>
      .obj [("error".data, .str ("JSON parsing error: ".data ++ decodeErrMsg)),
            ("raw_response".data, .str content),
            ("confidence_level".data, .str "error".data),
            ("mode".data, .str "error".data)]
    | some (.obj kvs) => .obj (kvs ++ meta)
    | some _ =>
      .obj [("error".data, .str "API call failed: TypeError".data),
            ("confidence_level".data, .str "error".data),
            ("mode".data, .str "error".data)]

/-- The three entries `analyze_hazard_image` assigns into the parsed dict
(lines 90-96). -/
def stdMeta (ts : ℚ) (modelName : List Char) (usage : Json) : List (List Char × Json) :=
  [("timestamp".data, .num ts), ("model".data, .str modelName), ("usage".data, usage)]

/-! ### Gemini method 1 (`GeminiHazardBenchmark.method1_manual_input_with_ai`) -/

/-- Lines 51-137, the part after the three `input()` answers and the model
call: extract the reply; on success build the dict of lines 105-118; on
`JSONDecodeError` the dict of lines 122-128; on any other exception
(transport, or `result.get` raising on a non-dict) the dict of lines
131-137.  Neither error dict has a `confidence_level` entry. -/
def method1_manual_input_with_ai (uIssue uLoc uNote : List Char)
    (call : CallOutcome) : Json :=
  match call with
  | .raised m =>
    .obj [("method".data, .str "manual_input_with_ai".data),
          ("error".data, .str ("AI analysis failed: ".data ++ m)),
          ("issue".data, .str ("Based on user input: ".data ++ uIssue)),
          ("location".data, .str uLoc),
          ("note".data, .str uNote)]
  | .ok t =>
    match geminiExtract t with
    | none =>
      .obj [("method".data, .str "manual_input_with_ai".data),
            ("error".data, .str ("JSON parsing failed: ".data ++ decodeErrMsg)),
            ("issue".data, .str ("Based on user input: ".data ++ uIssue)),
            ("location".data, .str uLoc),
            ("note".data, .str uNote)]
    | some (.obj d) =>
      .obj [("method".data, .str "manual_input_with_ai".data),
            ("user_input".data,
              .obj [("issue".data, .str uIssue), ("location".data, .str uLoc),
                    ("note".data, .str uNote)]),
            ("issue".data, (lookupLast d "issue".data).getD .null),
            ("location".data, (lookupLast d "location".data).getD .null),
            ("note".data, (lookupLast d "note".data).getD .null),
            ("confidence_level".data, (lookupLast d "confidence_level".data).getD .null),
            ("capa".data, (lookupLast d "capa".data).getD (.str [])),
            ("source".data, .str "ai_analysis_with_user_input".data)]
    | some _ =>
      .obj [("method".data, .str "manual_input_with_ai".data),
            ("error".data, .str "AI analysis failed: AttributeError".data),
            ("issue".data, .str ("Based on user input: ".data ++ uIssue)),
            ("location".data, .str uLoc),
            ("note".data, .str uNote)]

/-! ### Gemini method 2 (`GeminiHazardBenchmark.method2_ai_followup`) -/

/-- The system prompt of `gemini_hazard_benchmark.py` lines 25-44. -/
def gemini_system_prompt : List Char :=
  ("You are an expert factory safety inspector analyzing hazard photos.\n\nANALYSIS FOCUS:\n- Identify visible safety issues/hazards (electrical, mechanical, chemical, ergonomic, etc.)\n- Determine specific location within the facility \n- Note severity and immediate risks\n- Suggest corrective actions\n\nCONFIDENCE RULES:\n- High confidence (>80%): Clear, obvious hazards with sufficient detail\n- Medium confidence (50-80%): Some uncertainty about specifics\n- Low confidence (<50%): Unclear image, missing context, or ambiguous hazards\n\nOUTPUT REQUIREMENTS:\n- Be specific and safety-focused\n- Use technical safety terminology when appropriate\n- Consider immediate vs long-term risks\n- Prioritize worker safety above all else\n\nRESPONSE FORMAT: Always return valid JSON only.").data

/-- Text of the final prompt before the embedded follow-up question
(line 184-186). -/
def finalPromptPre : List Char :=
  gemini_system_prompt ++
    "\n\nCONTEXT: You previously analyzed this image and asked: \"".data

/-- Text between the embedded question and the embedded answer (lines
186-187). -/
def finalPromptMid : List Char := "\"\nUSER ANSWER: \"".data

/-- Text of the final prompt after the embedded answer (lines 187-198). -/
def finalPromptSuf : List Char :=
  ("\"\n\nTASK: Now provide your final safety assessment.\n\nOUTPUT FORMAT (JSON only):\n\x7b\n    \"issue\": \"specific safety issue/hazard\",\n    \"location\": \"specific location in facility\",\n    \"note\": \"additional safety details and severity\",\n    \"confidence_level\": \"high|medium|low\",\n    \"capa\": \"corrective and preventive action recommendation\"\n\x7d").data

/-- The `final_prompt` f-string of lines 184-198, as a function of the
embedded follow-up question and the user's answer. -/
def finalPrompt (q a : List Char) : List Char :=
  finalPromptPre ++ q ++ finalPromptMid ++ a ++ finalPromptSuf

/-- Python `str()` of a JSON-derived value as interpolated by an f-string.
Strings are embedded verbatim (the case every claim concerns); the rendering
of non-string values is abstracted. -/
def pyStr : Json → List Char
  | .str s => s
  | .num q => (toString q).data
  | .bool b => (if b then "True" else "False").data
  | .null => "None".data
  | .arr _ => []
  | .obj _ => []

/-- Error dict of `method2_ai_followup` lines 231-238 (`JSONDecodeError`). -/
def method2ParseErrorDict : Json :=
  .obj [("method".data, .str "ai_followup".data),
        ("error".data, .str ("JSON parsing failed: ".data ++ decodeErrMsg)),
        ("confidence_level".data, .str "error".data),
        ("issue".data, .str "AI response parsing failed".data),
        ("location".data, .str "N/A".data),
        ("note".data, .str "N/A".data)]

/-- Error dict of `method2_ai_followup` lines 241-248 (any other
exception). -/
def method2FailDict (m : List Char) : Json :=
  .obj [("method".data, .str "ai_followup".data),
        ("error".data, .str m),
        ("confidence_level".data, .str "error".data),
        ("issue".data, .str "AI analysis failed".data),
        ("location".data, .str "N/A".data),
        ("note".data, .str "N/A".data)]

/-- Lines 139-248: first call and extraction; on success, build the final
prompt embedding `followup_result.get('follow_up_question', '')` and the
supplied answer, issue the second call, extract, and build the dict of lines
215-225.  The second component records the final prompts actually sent
(empty when the run errors before the second call).  A non-dict parse makes
the subsequent `.get` raise `AttributeError`, caught by the generic handler. -/
def method2_ai_followup (call1 : CallOutcome) (answer : List Char)
    (call2 : CallOutcome) : Json × List (List Char) :=
  match call1 with
  | .raised m => (method2FailDict ("AI analysis failed: ".data ++ m), [])
  | .ok t1 =>
    match geminiExtract t1 with
    | none => (method2ParseErrorDict, [])
    | some (.obj d) =>
      let q := pyStr ((lookupLast d "follow_up_question".data).getD (.str []))
      let prompt := finalPrompt q answer
      match call2 with
      | .raised m => (method2FailDict ("AI analysis failed: ".data ++ m), [prompt])
      | .ok t2 =>
        match geminiExtract t2 with
        | none => (method2ParseErrorDict, [prompt])
        | some (.obj d2) =>
          (.obj [("method".data, .str "ai_followup".data),
                 ("follow_up_question".data,
                   (lookupLast d "follow_up_question".data).getD .null),
                 ("user_answer".data, .str answer),
                 ("issue".data, (lookupLast d2 "issue".data).getD .null),
                 ("location".data, (lookupLast d2 "location".data).getD .null),
                 ("note".data, (lookupLast d2 "note".data).getD .null),
                 ("confidence_level".data,
                   (lookupLast d2 "confidence_level".data).getD .null),
                 ("capa".data, (lookupLast d2 "capa".data).getD (.str [])),
                 ("source".data, .str "ai_analysis_with_followup".data)], [prompt])
        | some _ => (method2FailDict "AI analysis failed: AttributeError".data, [prompt])
    | some _ => (method2FailDict "AI analysis failed: AttributeError".data, [])

/-- Number of model calls `method2_ai_followup` issues: the second call is
sent only when the first reply extracts to a dict. -/
def method2_calls (call1 : CallOutcome) : Nat :=
  match call1 with
  | .raised _ => 1
  | .ok t1 =>
    match geminiExtract t1 with
    | some (.obj _) => 2
    | _ => 1

/-! ### Comparator (`GeminiHazardBenchmark.evaluate_accuracy`) -/

/-- Error dict of `evaluate_accuracy` lines 315-320. -/
def evalErrDict (m : List Char) : Json :=
  .obj [("error".data, .str m),
        ("method1_accuracy".data, .num (intRat 0)),
        ("method2_accuracy".data, .num (intRat 0)),
        ("winner".data, .str "error".data)]

/-- Lines 268-320: one judge call; extraction success returns whatever
`json.loads` produced (dict or not); the single `except Exception` handler
covers both transport failures and `JSONDecodeError`. -/
def evaluate_accuracy (call : CallOutcome) : Json :=
  match call with
  | .raised m => evalErrDict ("Evaluation failed: ".data ++ m)
  | .ok t =>
    match geminiExtract t with
    | none => evalErrDict ("Evaluation failed: ".data ++ decodeErrMsg)
    | some j => j

/-! ### Benchmark aggregator (`run_single_benchmark` / `run_full_benchmark`) -/

/-- Everything one trial of `run_single_benchmark` consumes: either the image
path does not exist (`os.path.exists` fails, line 329), or the manual inputs,
the three Gemini call outcomes, the ground-truth inputs and the judge call
outcome. -/
inductive TrialSpec where
  | missingFile
  | present (uIssue uLoc uNote : List Char) (m1Call : CallOutcome)
      (m2Call1 : CallOutcome) (answer : List Char) (m2Call2 : CallOutcome)
      (gtIssue gtLoc gtNote : List Char) (judgeCall : CallOutcome)

/-- The per-trial record of lines 342-349 (the fields the claims concern). -/
structure Trial where
  method1_result : Json
  method2_result : Json
  ground_truth : Json
  evaluation : Json

/-- Lines 322-349.  `none` models the trial raising: `FileNotFoundError`
for a missing path (line 330), or `_display_results` (line 340) raising
`AttributeError` when the judge's parsed reply is not a dict (line 359 calls
`evaluation.get`).  Both are caught by the aggregator's per-trial handler. -/
def run_single_benchmark : TrialSpec → Option Trial
  | .missingFile => none
  | .present uI uL uN c1 f1 ans f2 gI gL gN jc =>
    match evaluate_accuracy jc with
    | .obj _ =>
      some ⟨method1_manual_input_with_ai uI uL uN c1,
            (method2_ai_followup f1 ans f2).1,
            .obj [("actual_issue".data, .str gI), ("actual_location".data, .str gL),
                  ("actual_note".data, .str gN), ("source".data, .str "ground_truth".data)],
            evaluate_accuracy jc⟩
    | _ => none

/-- Model calls one trial issues: none when the path check fails; otherwise
one for method 1, one or two for method 2, one for the judge. -/
def run_single_calls : TrialSpec → Nat
  | .missingFile => 0
  | .present _ _ _ _ f1 _ _ _ _ _ _ => 1 + method2_calls f1 + 1

/-- `run_full_benchmark` aborts: `ValueError` for a wrong trial count
(line 378), `TypeError` when `sum()` meets a non-numeric accuracy
(line 402-403, outside the per-trial handler). -/
inductive RunError where
  | valueError
  | typeError
deriving DecidableEq

/-- The `benchmark_summary` dict of lines 408-415. -/
structure Summary where
  total_tests : Nat
  method1_average : ℚ
  method2_average : ℚ
  method1_scores : List Json
  method2_scores : List Json
  winner : List Char

/-- Python `sum()` over the collected scores: numbers add (and `bool` is an
`int` in Python); anything else raises `TypeError`. -/
def asNum? : Json → Option ℚ
  | .num q => some q
  | .bool b => some (if b then intRat 1 else intRat 0)
  | _ => none

/-- `sum(scores)/len(scores) if scores else 0` (lines 402-403), over exact
rationals in place of Python floats. -/
def avg (l : List ℚ) : ℚ := if l.isEmpty then 0 else l.sum / l.length

/-- Line 414: `"method1" if avg1 > avg2 else "method2" if avg2 > avg1 else
"tie"`. -/
def winnerOf (a1 a2 : ℚ) : List Char :=
  if a1 > a2 then "method1".data else if a2 > a1 then "method2".data else "tie".data

/-- Lines 394-395: `eval_data.get('method1_accuracy', 0)`. -/
def trialScore (key : List Char) (t : Trial) : Json :=
  Json.getD t.evaluation key (.num (intRat 0))

/-- The score list one strategy accumulates over the completed trials. -/
def scoresOf (specs : List TrialSpec) (key : List Char) : List Json :=
  (specs.filterMap run_single_benchmark).map (trialScore key)

/-- The observable outcome of `run_full_benchmark`: its return value (or the
exception it raises) plus the number of model calls issued. -/
structure RunOutput where
  result : Except RunError Summary
  callsMade : Nat

/-- Lines 375-417: raise `ValueError` unless exactly 5 paths were supplied
(before any trial runs); run the trials, skipping any that raises; average
the collected scores and determine the winner. -/
def run_full_benchmark (specs : List TrialSpec) : RunOutput :=
  if specs.length = 5 then
    let calls := (specs.map run_single_calls).sum
    match (scoresOf specs "method1_accuracy".data).mapM asNum?,
        (scoresOf specs "method2_accuracy".data).mapM asNum? with
    | some n1, some n2 =>
      ⟨.ok ⟨(specs.filterMap run_single_benchmark).length, avg n1, avg n2,
            scoresOf specs "method1_accuracy".data,
            scoresOf specs "method2_accuracy".data,
            winnerOf (avg n1) (avg n2)⟩, calls⟩
    | _, _ => ⟨.error .typeError, calls⟩
  else ⟨.error .valueError, 0⟩

/-! ### Statement helpers -/

/-- The assessment mode a result dict declares. -/
def modeOf (j : Json) : Option Json := Json.get j "mode".data

/-- The confidence tier a result dict declares. -/
def confOf (j : Json) : Option Json := Json.get j "confidence_level".data

/-- `call` is a Gemini-side call whose handling fails: the transport raised,
or the reply does not extract as JSON. -/
def geminiCallFails (call : CallOutcome) : Prop :=
  match call with
  | .raised _ => True
  | .ok t => geminiExtract t = none

/-- `call` is a single-pass call whose handling fails: the transport raised,
or the reply does not extract as JSON. -/
def openaiCallFails (call : CallOutcome) : Prop :=
  match call with
  | .raised _ => True
  | .ok t => openaiExtract t = none

/-- Some top-level string value of the record contains `needle` (the natural
reading of a record "including" a piece of text; the error records at issue
are flat, so top-level suffices). -/
def objMentions (needle : List Char) (j : Json) : Bool :=
  match j with
  | .obj kvs =>
    kvs.any (fun kv =>
      match kv.2 with
      | .str s => occursIn needle s
      | _ => false)
  | _ => false

/-- What the single-pass assessor actually reports as `mode` (read off the
code, for the amended C1): the model-declared `mode` field verbatim on a
successful parse, `"error"` otherwise — no confidence gating. -/
def singlePassMode (call : CallOutcome) : Option Json :=
  match call with
  | .raised _ => some (.str "error".data)
  | .ok t =>
    match openaiExtract t with
    | some (.obj d) => lookupLast d "mode".data
    | some _ => some (.str "error".data)
    | none => some (.str "error".data)

/-- What the single-pass assessor actually reports as `confidence_level`. -/
def singlePassConf (call : CallOutcome) : Option Json :=
  match call with
  | .raised _ => some (.str "error".data)
  | .ok t =>
    match openaiExtract t with
    | some (.obj d) => lookupLast d "confidence_level".data
    | some _ => some (.str "error".data)
    | none => some (.str "error".data)

/-- A well-formed ```json fenced block around payload `p`. -/
def fenceWrap (p : List Char) : List Char := tickJson ++ '\n' :: (p ++ '\n' :: ticks)

/-! ### Concrete inputs for counterexamples and witnesses -/

/-- A reply whose model-declared mode is AutoFill while its declared
confidence is low. -/
def c1reply : List Char :=
  "\x7b\"mode\": \"auto_fill\", \"confidence_level\": \"low\"\x7d".data

/-- The dict `c1reply` parses to. -/
def c1dict : List (List Char × Json) :=
  [("mode".data, .str "auto_fill".data),
   ("confidence_level".data, .str "low".data)]

/-- A reply that is not JSON at all. -/
def c2reply : List Char := "this is not valid json at all".data

/-- Another non-JSON reply. -/
def c4reply : List Char := "still not json".data

/-- A well-formed JSON payload with no backtick fences. -/
def p3 : List Char := "\x7b\"issue\": \"exposed wiring\"\x7d".data

/-- The record `p3` parses to. -/
def j3 : Json := .obj [("issue".data, .str "exposed wiring".data)]

/-- An unfenced reply: `p3` surrounded by whitespace only. -/
def r3 : List Char := ' ' :: ' ' :: (p3 ++ ['\n'])

/-- A first-round reply carrying a follow-up question. -/
def t6 : List Char :=
  "\x7b\"follow_up_question\": \"What material is on the floor?\"\x7d".data

/-- The dict `t6` parses to. -/
def d6 : List (List Char × Json) :=
  [("follow_up_question".data, .str "What material is on the floor?".data)]

/-- The scripted clarification answer named by the spec. -/
def ans6 : List Char := "metal shard visible near conveyor belt, west wall".data

/-- A reply with an opening ```json fence but no closing fence after it. -/
def s10 : List Char := "```json \x7b\"x\": 2\x7d".data

/-- A trial whose three assessor calls fail on transport and whose judge
reply is `reply`. -/
def judgedTrial (reply : List Char) : TrialSpec :=
  .present "a".data "b".data "c".data (.raised "down".data) (.raised "down".data)
    "x".data (.raised "down".data) "gtA".data "gtB".data "gtC".data (.ok reply)

/-- Judge replies carrying the per-trial score pairs of the spec's aggregator
example. -/
def demoSpecs : List TrialSpec :=
  [judgedTrial "\x7b\"method1_accuracy\": 80, \"method2_accuracy\": 90\x7d".data,
   judgedTrial "\x7b\"method1_accuracy\": 70, \"method2_accuracy\": 95\x7d".data,
   judgedTrial "\x7b\"method1_accuracy\": 100, \"method2_accuracy\": 85\x7d".data,
   judgedTrial "\x7b\"method1_accuracy\": 60, \"method2_accuracy\": 70\x7d".data,
   judgedTrial "\x7b\"method1_accuracy\": 90, \"method2_accuracy\": 88\x7d".data]

/-- A trial that completes with an erroring judge (zero scores). -/
def plainTrial : TrialSpec :=
  .present "a".data "b".data "c".data (.raised "down".data) (.raised "down".data)
    "x".data (.raised "down".data) "gtA".data "gtB".data "gtC".data
    (.raised "down".data)

/-- Five paths, the second of which does not exist. -/
def nineSpecs : List TrialSpec :=
  [plainTrial, .missingFile, plainTrial, plainTrial, plainTrial]

/-- Five missing paths: every trial is skipped. -/
def allMissing : List TrialSpec := List.replicate 5 TrialSpec.missingFile

/-- Four paths: one too few for the full benchmark. -/
def fourSpecs : List TrialSpec := List.replicate 4 TrialSpec.missingFile

/-! ### Substring-search lemmas -/

theorem isPrefixOf_append_self (a t : List Char) : a.isPrefixOf (a ++ t) = true := by
  rw [List.isPrefixOf_iff_prefix]
  exact List.prefix_append a t

theorem isPrefixOf_false_of_short {pat s : List Char} (h : s.length < pat.length) :
    pat.isPrefixOf s = false := by
  cases hp : pat.isPrefixOf s with
  | false => rfl
  | true =>
    exact absurd (List.isPrefixOf_iff_prefix.mp hp).length_le (by omega)

theorem findSub?_self_append (pat t : List Char) (h : pat ≠ []) :
    findSub? pat (pat ++ t) = some 0 := by
  cases pat with
  | nil => exact absurd rfl h
  | cons c p' =>
    rw [List.cons_append, findSub?, ← List.cons_append, isPrefixOf_append_self]
    rfl

theorem prefix_of_findSub?_none (pat : List Char) :
    ∀ s : List Char, findSub? pat s = none → ∀ i, pat.isPrefixOf (s.drop i) = false := by
  intro s
  induction s with
  | nil =>
    intro h i
    rw [findSub?] at h
    have hne : pat ≠ [] := by
      intro he; rw [he] at h; simp at h
    rw [List.drop_nil]
    cases pat with
    | nil => exact absurd rfl hne
    | cons c p' => rfl
  | cons c rest ih =>
    intro h i
    rw [findSub?] at h
    by_cases hp : pat.isPrefixOf (c :: rest) = true
    · rw [hp] at h; simp at h
    · have hfalse : pat.isPrefixOf (c :: rest) = false := by
        cases hx : pat.isPrefixOf (c :: rest) with
        | false => rfl
        | true => exact absurd hx hp
      rw [hfalse] at h
      simp only [Bool.false_eq_true, if_false, Option.map_eq_none'] at h
      match i with
      | 0 => simpa using hfalse
      | i' + 1 => rw [List.drop_succ_cons]; exact ih h i'

theorem findSub?_eq_none (pat : List Char) :
    ∀ s : List Char, (∀ i, pat.isPrefixOf (s.drop i) = false) → findSub? pat s = none := by
  intro s
  induction s with
  | nil =>
    intro h
    have h0 := h 0
    rw [List.drop_nil] at h0
    rw [findSub?]
    cases pat with
    | nil => simp at h0
    | cons c p' => rfl
  | cons c rest ih =>
    intro h
    rw [findSub?]
    have h0 := h 0
    rw [List.drop_zero] at h0
    rw [h0]
    simp only [Bool.false_eq_true, if_false, Option.map_eq_none']
    exact ih (fun i => by simpa [List.drop_succ_cons] using h (i + 1))

theorem occursIn_true_of (pat s : List Char) (i : Nat)
    (h : pat.isPrefixOf (s.drop i) = true) : occursIn pat s = true := by
  unfold occursIn
  cases hf : findSub? pat s with
  | some n => rfl
  | none =>
    have := prefix_of_findSub?_none pat s hf i
    rw [h] at this
    cases this

theorem of_findSub?_some (pat : List Char) :
    ∀ (s : List Char) (n : Nat), findSub? pat s = some n →
      pat.isPrefixOf (s.drop n) = true ∧ n ≤ s.length := by
  intro s
  induction s with
  | nil =>
    intro n h
    rw [findSub?] at h
    by_cases he : pat.isEmpty
    · rw [if_pos he] at h
      cases h
      refine ⟨?_, Nat.le_refl 0⟩
      cases pat with
      | nil => rfl
      | cons c p' => simp [List.isEmpty] at he
    · rw [if_neg he] at h; cases h
  | cons c rest ih =>
    intro n h
    rw [findSub?] at h
    by_cases hp : pat.isPrefixOf (c :: rest) = true
    · rw [hp] at h
      simp only [if_true] at h
      cases h
      exact ⟨by simpa using hp, Nat.zero_le _⟩
    · have hfalse : pat.isPrefixOf (c :: rest) = false := by
        cases hx : pat.isPrefixOf (c :: rest) with
        | false => rfl
        | true => exact absurd hx hp
      rw [hfalse] at h
      simp only [Bool.false_eq_true, if_false] at h
      cases hr : findSub? pat rest with
      | none => rw [hr] at h; cases h
      | some m =>
        rw [hr] at h
        cases h
        obtain ⟨h1, h2⟩ := ih m hr
        exact ⟨by simpa [List.drop_succ_cons] using h1, by simp; omega⟩

theorem occursIn_of_isPrefixOf {pat s : List Char} (h : pat.isPrefixOf s = true) :
    occursIn pat s = true :=
  occursIn_true_of pat s 0 (by simpa using h)

theorem findSub?_append_right (pat : List Char) :
    ∀ a b : List Char, (∀ i, i < a.length → pat.isPrefixOf ((a ++ b).drop i) = false) →
      findSub? pat (a ++ b) = (findSub? pat b).map (· + a.length) := by
  intro a
  induction a with
  | nil =>
    intro b _
    simp only [List.nil_append, List.length_nil]
    cases hb : findSub? pat b <;> simp [hb]
  | cons c a' ih =>
    intro b h
    rw [List.cons_append, findSub?]
    have h0 : pat.isPrefixOf (c :: (a' ++ b)) = false := by
      simpa using h 0 (by simp)
    rw [h0]
    simp only [Bool.false_eq_true, if_false]
    rw [ih b (fun i hi => by simpa [List.drop_succ_cons] using h (i + 1) (by simp; omega))]
    cases hb : findSub? pat b <;> simp [List.length_cons, Nat.add_assoc]

theorem prefix_trim {pat x y : List Char} (h : pat <+: x ++ y)
    (hl : pat.length ≤ x.length) : pat <+: x := by
  have ht := List.prefix_iff_eq_take.mp h
  rw [List.take_append_eq_append_take, Nat.sub_eq_zero_of_le hl, List.take_zero,
    List.append_nil] at ht
  rw [ht]
  exact List.take_prefix _ _

theorem not_match_across_sep (pat p b : List Char) (sep : Char)
    (hsep : sep ∉ pat) (hp : findSub? pat p = none) :
    ∀ i, i < p.length + 1 → pat.isPrefixOf ((p ++ sep :: b).drop i) = false := by
  intro i hi
  cases hm : pat.isPrefixOf ((p ++ sep :: b).drop i) with
  | false => rfl
  | true =>
    exfalso
    have hpre := List.isPrefixOf_iff_prefix.mp hm
    by_cases hfit : i + pat.length ≤ p.length
    · have hdrop : (p ++ sep :: b).drop i = p.drop i ++ sep :: b := by
        rw [List.drop_append_eq_append_drop, Nat.sub_eq_zero_of_le (by omega),
          List.drop_zero]
      rw [hdrop] at hpre
      have htrim : pat <+: p.drop i := by
        refine prefix_trim hpre ?_
        rw [List.length_drop]
        omega
      have := prefix_of_findSub?_none pat p hp i
      rw [List.isPrefixOf_iff_prefix.mpr htrim] at this
      cases this
    · have hip : i ≤ p.length := by omega
      have hk : p.length - i < pat.length := by omega
      have hidx : ((p ++ sep :: b).drop i)[p.length - i]? = some sep := by
        rw [List.getElem?_drop, show i + (p.length - i) = p.length by omega,
          List.getElem?_append_right (Nat.le_refl _), Nat.sub_self]
        simp
      obtain ⟨t, ht⟩ := hpre
      rw [← ht, List.getElem?_append, if_pos hk] at hidx
      obtain ⟨hlt, heq⟩ := List.getElem?_eq_some_iff.mp hidx
      exact hsep (heq ▸ List.getElem_mem hlt)

/-! ### `removeAll` lemmas -/

theorem removeAll_nil (pat : List Char) : removeAll pat [] = [] := by
  simp [removeAll]

theorem removeAll_of_none (pat : List Char) :
    ∀ s, findSub? pat s = none → removeAll pat s = s := by
  intro s
  induction s with
  | nil => intro _; exact removeAll_nil pat
  | cons c rest ih =>
    intro h
    rw [findSub?] at h
    by_cases hp : pat.isPrefixOf (c :: rest) = true
    · rw [hp] at h; simp at h
    · have hfalse : pat.isPrefixOf (c :: rest) = false := by
        cases hx : pat.isPrefixOf (c :: rest) with
        | false => rfl
        | true => exact absurd hx hp
      rw [hfalse] at h
      simp only [Bool.false_eq_true, if_false, Option.map_eq_none'] at h
      rw [removeAll, hfalse]
      simp only [Bool.and_false, Bool.false_eq_true, if_false]
      rw [ih h]

theorem removeAll_self_append (pat t : List Char) (h : pat ≠ []) :
    removeAll pat (pat ++ t) = removeAll pat t := by
  cases pat with
  | nil => exact absurd rfl h
  | cons c p' =>
    rw [List.cons_append, removeAll]
    have hpre : (c :: p').isPrefixOf (c :: (p' ++ t)) = true := by
      rw [← List.cons_append]; exact isPrefixOf_append_self _ _
    rw [hpre]
    simp only [List.isEmpty, Bool.not_false, Bool.true_and, if_true,
      List.length_cons, Nat.add_sub_cancel]
    rw [List.drop_left]

theorem removeAll_append_right (pat : List Char) :
    ∀ a b : List Char, (∀ i, i < a.length → pat.isPrefixOf ((a ++ b).drop i) = false) →
      removeAll pat (a ++ b) = a ++ removeAll pat b := by
  intro a
  induction a with
  | nil => intro b _; simp
  | cons c a' ih =>
    intro b h
    rw [List.cons_append, removeAll]
    have h0 : pat.isPrefixOf (c :: (a' ++ b)) = false := by
      simpa using h 0 (by simp)
    rw [h0]
    simp only [Bool.and_false, Bool.false_eq_true, if_false, List.cons_append]
    rw [ih b (fun i hi => by simpa [List.drop_succ_cons] using h (i + 1) (by simp; omega))]

/-! ### Strip lemmas -/

theorem lstrip_cons_ws {c : Char} (h : pyWs c = true) (s : List Char) :
    lstrip (c :: s) = lstrip s := by
  simp [lstrip, List.dropWhile_cons, h]

theorem lstrip_cons_not_ws {c : Char} (h : pyWs c = false) (s : List Char) :
    lstrip (c :: s) = c :: s := by
  simp [lstrip, List.dropWhile_cons, h]

theorem rstrip_append_ws {c : Char} (h : pyWs c = true) (s : List Char) :
    rstrip (s ++ [c]) = rstrip s := by
  simp [rstrip, List.reverse_append, List.dropWhile_cons, h]

theorem rstrip_append_not_ws {c : Char} (h : pyWs c = false) (s : List Char) :
    rstrip (s ++ [c]) = s ++ [c] := by
  simp [rstrip, List.reverse_append, List.dropWhile_cons, h]

theorem pyStrip_decorate (p : List Char) :
    pyStrip ('\n' :: (p ++ ['\n'])) = pyStrip p := by
  unfold pyStrip
  rw [lstrip_cons_ws (by decide)]
  unfold lstrip
  rw [List.dropWhile_append]
  by_cases he : (List.dropWhile pyWs p).isEmpty
  · rw [if_pos he, show List.dropWhile pyWs ['\n'] = ([] : List Char) by decide,
      show List.dropWhile pyWs p = ([] : List Char) from by
        simpa [List.isEmpty_iff] using he]
  · rw [if_neg he]
    exact rstrip_append_ws (by decide) _

theorem length_lstrip_le (s : List Char) : (lstrip s).length ≤ s.length :=
  (List.dropWhile_suffix pyWs).sublist.length_le

theorem length_rstrip_le (s : List Char) : (rstrip s).length ≤ s.length := by
  rw [rstrip, List.length_reverse]
  have := (List.dropWhile_suffix (l := s.reverse) pyWs).sublist.length_le
  rw [List.length_reverse] at this
  exact this

theorem lstrip_of_pyStrip_eq {s : List Char} (h : pyStrip s = s) : lstrip s = s := by
  have h1 : (pyStrip s).length ≤ (lstrip s).length := length_rstrip_le _
  have h2 : (lstrip s).length ≤ s.length := length_lstrip_le s
  have hlen : (lstrip s).length = s.length := by rw [h] at h1; omega
  exact (List.dropWhile_suffix pyWs).sublist.eq_of_length hlen

theorem rstrip_of_pyStrip_eq {s : List Char} (h : pyStrip s = s) : rstrip s = s := by
  have := lstrip_of_pyStrip_eq h
  rw [pyStrip, this] at h
  exact h

theorem rstrip_prefix_self (s : List Char) : rstrip s <+: s := by
  obtain ⟨u, hu⟩ := List.dropWhile_suffix (l := s.reverse) pyWs
  refine ⟨u.reverse, ?_⟩
  rw [rstrip]
  have : s.reverse.reverse = (u ++ List.dropWhile pyWs s.reverse).reverse := by rw [hu]
  rw [List.reverse_reverse, List.reverse_append] at this
  exact this.symm

theorem pyStrip_infix_self (s : List Char) : pyStrip s <:+: s :=
  ((rstrip_prefix_self (lstrip s)).isInfix.trans (List.dropWhile_suffix pyWs).isInfix)

theorem occursIn_of_infix {pat s t : List Char} (h : occursIn pat s = true)
    (hinf : s <:+: t) : occursIn pat t = true := by
  obtain ⟨u, v, huv⟩ := hinf
  unfold occursIn at h
  cases hf : findSub? pat s with
  | none => rw [hf] at h; cases h
  | some n =>
    obtain ⟨hpre, hn⟩ := of_findSub?_some pat s n hf
    apply occursIn_true_of pat t (u.length + n)
    have hdrop : t.drop (u.length + n) = s.drop n ++ v := by
      rw [← huv, List.append_assoc, List.drop_append_eq_append_drop,
        List.drop_eq_nil_of_le (by omega), Nat.add_sub_cancel_left, List.nil_append,
        List.drop_append_eq_append_drop, Nat.sub_eq_zero_of_le hn, List.drop_zero]
    rw [hdrop, List.isPrefixOf_iff_prefix]
    exact (List.isPrefixOf_iff_prefix.mp hpre).trans (List.prefix_append _ _)

theorem occursIn_sandwich (u x v : List Char) : occursIn x (u ++ (x ++ v)) = true := by
  apply occursIn_true_of x _ u.length
  rw [List.drop_left]
  exact isPrefixOf_append_self x v

/-! ### Fence-stripping computation -/

theorem findSub?_empty (s : List Char) : findSub? [] s = some 0 := by
  cases s <;> simp [findSub?, List.isPrefixOf]

theorem findSub?_none_of_occursIn {pat s : List Char} (h : occursIn pat s = false) :
    findSub? pat s = none := by
  unfold occursIn at h
  cases hf : findSub? pat s with
  | none => rfl
  | some n => rw [hf] at h; cases h

theorem decorated_no_match (pat p b : List Char) (hsep : '\n' ∉ pat)
    (hp : findSub? pat p = none) :
    ∀ i, i < p.length + 2 → pat.isPrefixOf (('\n' :: (p ++ '\n' :: b)).drop i) = false := by
  intro i hi
  match i with
  | 0 =>
    have hpat : pat ≠ [] := by
      intro he
      rw [he, findSub?_empty] at hp
      cases hp
    cases pat with
    | nil => exact absurd rfl hpat
    | cons c cs =>
      have hc : (c == '\n') = false := by
        cases hx : c == '\n' with
        | false => rfl
        | true =>
          exact absurd (by rw [show c = '\n' from by simpa using hx]; exact List.mem_cons_self _ _) hsep
      rw [List.drop_zero,
        show (c :: cs).isPrefixOf ('\n' :: (p ++ '\n' :: b))
          = (c == '\n' && cs.isPrefixOf (p ++ '\n' :: b)) from rfl,
        hc, Bool.false_and]
  | i' + 1 =>
    rw [List.drop_succ_cons]
    exact not_match_across_sep pat p b '\n' hsep hp i' (by omega)

theorem tickJson_none_of_ticks {p : List Char} (hp : findSub? ticks p = none) :
    findSub? tickJson p = none := by
  apply findSub?_eq_none
  intro i
  cases hm : tickJson.isPrefixOf (p.drop i) with
  | false => rfl
  | true =>
    exfalso
    have h1 : ticks <+: tickJson := by
      rw [← List.isPrefixOf_iff_prefix]
      decide
    have h2 := h1.trans (List.isPrefixOf_iff_prefix.mp hm)
    have h3 := prefix_of_findSub?_none ticks p hp i
    rw [List.isPrefixOf_iff_prefix.mpr h2] at h3
    cases h3

theorem findSub?_ticks_decorated (p : List Char) (hp : findSub? ticks p = none) :
    findSub? ticks ('\n' :: (p ++ '\n' :: ticks)) = some (p.length + 2) := by
  have hassoc : ('\n' :: (p ++ '\n' :: ticks)) = ('\n' :: (p ++ ['\n'])) ++ ticks := by
    simp
  have hself : findSub? ticks ticks = some 0 := by
    have := findSub?_self_append ticks [] (by decide)
    simpa using this
  rw [hassoc, findSub?_append_right ticks ('\n' :: (p ++ ['\n'])) ticks ?hm, hself]
  · simp
  case hm =>
    intro i hi
    rw [← hassoc]
    refine decorated_no_match ticks p ticks (by decide) hp i ?_
    simpa using hi

theorem findSub?_tickJson_decorated (p : List Char) (hp : findSub? ticks p = none) :
    findSub? tickJson ('\n' :: (p ++ '\n' :: ticks)) = none := by
  apply findSub?_eq_none
  intro i
  by_cases hi : i < p.length + 2
  · exact decorated_no_match tickJson p ticks (by decide) (tickJson_none_of_ticks hp) i hi
  · apply isPrefixOf_false_of_short
    rw [List.length_drop]
    have hlen : ('\n' :: (p ++ '\n' :: ticks)).length = p.length + 5 := by
      simp [ticks]
    have h7 : tickJson.length = 7 := by decide
    omega

theorem removeAll_ticks_decorated (p : List Char) (hp : findSub? ticks p = none) :
    removeAll ticks ('\n' :: (p ++ '\n' :: ticks)) = '\n' :: (p ++ ['\n']) := by
  have hassoc : ('\n' :: (p ++ '\n' :: ticks)) = ('\n' :: (p ++ ['\n'])) ++ ticks := by
    simp
  have hempty : removeAll ticks ticks = [] := by
    have := removeAll_self_append ticks [] (by decide)
    simpa [removeAll_nil] using this
  rw [hassoc, removeAll_append_right ticks _ _ ?hm, hempty, List.append_nil]
  case hm =>
    intro i hi
    rw [← hassoc]
    refine decorated_no_match ticks p ticks (by decide) hp i ?_
    simpa using hi

theorem pyStrip_fenceWrap (p : List Char) : pyStrip (fenceWrap p) = fenceWrap p := by
  have h1 : fenceWrap p = '`' :: ("``json".data ++ ('\n' :: (p ++ '\n' :: ticks))) := rfl
  have h2 : fenceWrap p = (tickJson ++ ('\n' :: (p ++ ['\n'] ++ "``".data))) ++ ['`'] := by
    simp [fenceWrap, tickJson, ticks]
  unfold pyStrip
  rw [h1, lstrip_cons_not_ws (by decide), ← h1, h2]
  exact rstrip_append_not_ws (by decide) _

theorem geminiStrip_fenceWrap (p : List Char) (hp : findSub? ticks p = none) :
    geminiStrip (fenceWrap p) = pyStrip p := by
  have hX : fenceWrap p = tickJson ++ ('\n' :: (p ++ '\n' :: ticks)) := rfl
  have h1 : findSub? tickJson (fenceWrap p) = some 0 := by
    rw [hX]
    exact findSub?_self_append tickJson _ (by decide)
  unfold geminiStrip
  rw [h1]
  show pyStrip (pySlice (fenceWrap p) ((0 + 7 : Nat) : Int)
    (pyFindFrom (fenceWrap p) ticks (0 + 7))) = pyStrip p
  have hdrop : (fenceWrap p).drop (0 + 7) = '\n' :: (p ++ '\n' :: ticks) := by
    rw [hX]
    exact List.drop_left' (by decide)
  have hfind : pyFindFrom (fenceWrap p) ticks (0 + 7) = ((9 + p.length : Nat) : Int) := by
    unfold pyFindFrom
    rw [hdrop, findSub?_ticks_decorated p hp]
    show ((0 + 7 + (p.length + 2) : Nat) : Int) = ((9 + p.length : Nat) : Int)
    congr 1
    omega
  rw [hfind]
  have hlen : (fenceWrap p).length = p.length + 12 := by
    simp [fenceWrap, tickJson, ticks]
  have hsplit : fenceWrap p = (tickJson ++ ('\n' :: (p ++ ['\n']))) ++ ticks := by
    simp [fenceWrap, tickJson, ticks]
  unfold pySlice pySliceIdx
  rw [if_neg (by omega), if_neg (by omega)]
  rw [show ((9 + p.length : Nat) : Int).toNat = 9 + p.length from Int.toNat_ofNat _,
    show ((0 + 7 : Nat) : Int).toNat = 7 from rfl]
  rw [hlen, Nat.min_eq_left (by omega), Nat.min_eq_left (by omega)]
  rw [hsplit, List.take_left' (by simp [tickJson]; omega)]
  rw [List.drop_left' (by decide)]
  exact pyStrip_decorate p

theorem openaiStrip_fenceWrap (p : List Char) (hp : findSub? ticks p = none) :
    openaiStrip (fenceWrap p) = pyStrip p := by
  have hX : fenceWrap p = tickJson ++ ('\n' :: (p ++ '\n' :: ticks)) := rfl
  unfold openaiStrip
  rw [hX, isPrefixOf_append_self]
  simp only [if_true]
  rw [removeAll_self_append _ _ (by decide),
    removeAll_of_none _ _ (findSub?_tickJson_decorated p hp),
    removeAll_ticks_decorated p hp]
  exact pyStrip_decorate p

theorem geminiStrip_no_fence {s : List Char} (h : findSub? tickJson s = none) :
    geminiStrip s = s := by
  unfold geminiStrip
  rw [h]

theorem openaiStrip_no_fence {s : List Char} (h : tickJson.isPrefixOf s = false) :
    openaiStrip s = s := by
  unfold openaiStrip
  rw [h]
  simp

/-! ### Dict-lookup and aggregator lemmas -/

theorem lookupLast_append (a b : List (List Char × Json)) (k : List Char) :
    lookupLast (a ++ b) k =
      (match lookupLast b k with
       | some v => some v
       | none => lookupLast a k) := by
  induction a with
  | nil =>
    cases h : lookupLast b k <;> simp [h, lookupLast]
  | cons kv a ih =>
    obtain ⟨k', v'⟩ := kv
    rw [List.cons_append]
    show (match lookupLast (a ++ b) k with
          | some r => some r
          | none => if k' = k then some v' else none) = _
    rw [ih]
    cases h : lookupLast b k with
    | some v => rfl
    | none => rfl

theorem length_filterMap_eq_countP {α β : Type} (f : α → Option β) (l : List α) :
    (l.filterMap f).length = l.countP (fun a => (f a).isSome) := by
  induction l with
  | nil => rfl
  | cons a l ih =>
    rw [List.filterMap_cons, List.countP_cons]
    cases h : f a <;> simp [h, ih]

theorem run_full_ok {specs : List TrialSpec} {s : Summary}
    (h : (run_full_benchmark specs).result = .ok s) :
    specs.length = 5 ∧
    ∃ n1 n2,
      (scoresOf specs "method1_accuracy".data).mapM asNum? = some n1 ∧
      (scoresOf specs "method2_accuracy".data).mapM asNum? = some n2 ∧
      s = ⟨(specs.filterMap run_single_benchmark).length, avg n1, avg n2,
           scoresOf specs "method1_accuracy".data,
           scoresOf specs "method2_accuracy".data,
           winnerOf (avg n1) (avg n2)⟩ := by
  unfold run_full_benchmark at h
  by_cases h5 : specs.length = 5
  · rw [if_pos h5] at h
    refine ⟨h5, ?_⟩
    cases hm1 : (scoresOf specs "method1_accuracy".data).mapM asNum? with
    | none =>
      rw [hm1] at h
      exact Except.noConfusion h
    | some n1 =>
      cases hm2 : (scoresOf specs "method2_accuracy".data).mapM asNum? with
      | none =>
        rw [hm1, hm2] at h
        exact Except.noConfusion h
      | some n2 =>
        rw [hm1, hm2] at h
        exact ⟨n1, n2, rfl, rfl, (Except.ok.inj h).symm⟩
  · rw [if_neg h5] at h
    exact Except.noConfusion h

/-! ### Claims -/

/-- C10: for every reply that contains "```json" (first occurrence at `idx`)
but no closing "```" after it, the Gemini-side fence-stripping hands
`json.loads` the substring from just after the opening marker up to but
excluding the last character of the text (the `-1` sentinel of `find` is used
as the slice end), stripped — not the full remainder. -/
theorem claim_C10 (s : List Char) (idx : Nat)
    (h1 : findSub? tickJson s = some idx)
    (h2 : findSub? ticks (s.drop (idx + 7)) = none) :
    geminiStrip s = pyStrip ((s.take (s.length - 1)).drop (idx + 7)) := by
  have hlen : idx + 7 ≤ s.length := by
    obtain ⟨hpre, hle⟩ := of_findSub?_some tickJson s idx h1
    have hll := (List.isPrefixOf_iff_prefix.mp hpre).length_le
    rw [List.length_drop] at hll
    have h7 : tickJson.length = 7 := by decide
    omega
  unfold geminiStrip
  rw [h1]
  show pyStrip (pySlice s ((idx + 7 : Nat) : Int) (pyFindFrom s ticks (idx + 7))) = _
  have hfind : pyFindFrom s ticks (idx + 7) = -1 := by
    unfold pyFindFrom
    rw [h2]
  rw [hfind]
  unfold pySlice pySliceIdx
  rw [if_pos (by omega : (-1 : Int) < 0), if_neg (by omega : ¬ ((idx + 7 : Nat) : Int) < 0)]
  rw [show ((s.length : Int) + (-1)).toNat = s.length - 1 from by omega,
    show ((idx + 7 : Nat) : Int).toNat = idx + 7 from by omega,
    Nat.min_eq_left hlen]

/-- C10 witness: a concrete reply with an unterminated ```json fence. -/
theorem claim_C10_witness :
    geminiStrip s10 = pyStrip ((s10.take (s10.length - 1)).drop (0 + 7)) :=
  claim_C10 s10 0 (by rfl) (by rfl)

/-- C3: extracting a payload wrapped in a well-formed ```json fenced block
(the payload is stripped and contains no "```", so the block really is
well-formed) recovers exactly the record obtained by parsing the payload
directly, at both extraction sites; and extraction of any fence-free reply
that parses as the same record succeeds identically (fence-stripping is a
no-op when the markers are absent). -/
theorem claim_C3 (p : List Char) (j : Json)
    (hstrip : pyStrip p = p) (hticks : occursIn ticks p = false)
    (hp : jsonLoads p = some j) :
    geminiExtract (fenceWrap p) = some j ∧
    openaiExtract (fenceWrap p) = some j ∧
    ∀ r, occursIn tickJson r = false → jsonLoads (pyStrip r) = some j →
      geminiExtract r = some j ∧ openaiExtract r = some j := by
  have hpn : findSub? ticks p = none := findSub?_none_of_occursIn hticks
  refine ⟨?_, ?_, ?_⟩
  · unfold geminiExtract
    rw [pyStrip_fenceWrap, geminiStrip_fenceWrap p hpn, hstrip, hp]
  · unfold openaiExtract
    rw [pyStrip_fenceWrap, openaiStrip_fenceWrap p hpn, hstrip, hp]
  · intro r hr hjr
    have hnf : findSub? tickJson (pyStrip r) = none := by
      cases hf : findSub? tickJson (pyStrip r) with
      | none => rfl
      | some n =>
        exfalso
        have hocc : occursIn tickJson (pyStrip r) = true := by
          unfold occursIn
          rw [hf]
          rfl
        have htr := occursIn_of_infix hocc (pyStrip_infix_self r)
        rw [hr] at htr
        cases htr
    constructor
    · unfold geminiExtract
      rw [geminiStrip_no_fence hnf, hjr]
    · have hpf : tickJson.isPrefixOf (pyStrip r) = false := by
        cases hx : tickJson.isPrefixOf (pyStrip r) with
        | false => rfl
        | true =>
          exfalso
          have htr := occursIn_of_infix (occursIn_of_isPrefixOf hx) (pyStrip_infix_self r)
          rw [hr] at htr
          cases htr
      unfold openaiExtract
      rw [openaiStrip_no_fence hpf, hjr]

/-- C3 witness: a concrete payload, fenced and unfenced. -/
theorem claim_C3_witness :
    geminiExtract (fenceWrap p3) = some j3 ∧ openaiExtract (fenceWrap p3) = some j3 ∧
    (geminiExtract r3 = some j3 ∧ openaiExtract r3 = some j3) := by
  have h := claim_C3 p3 j3 (by rfl) (by rfl) (by rfl)
  exact ⟨h.1, h.2.1, h.2.2 r3 (by rfl) (by rfl)⟩

/-- When the first reply extracts to a dict, the two-round assessor sends
exactly one final prompt, built from the (defaulted) follow-up question and
the answer. -/
theorem method2_trace_obj (t1 : List Char) (d : List (List Char × Json))
    (a : List Char) (c2 : CallOutcome) (h1 : geminiExtract t1 = some (.obj d)) :
    (method2_ai_followup (.ok t1) a c2).2
      = [finalPrompt (pyStr ((lookupLast d "follow_up_question".data).getD (.str []))) a] := by
  unfold method2_ai_followup
  dsimp only
  rw [h1]
  dsimp only
  cases c2 with
  | raised m => rfl
  | ok t2 =>
    dsimp only
    cases hg : geminiExtract t2 with
    | none => rfl
    | some j2 => cases j2 <;> rfl

/-- C6: when the first extraction of the two-round assessor succeeds and
yields a follow-up question, the prompt of the final (second) model call is
the `final_prompt` f-string, which contains both that follow-up question and
the exact supplied answer string as substrings. -/
theorem claim_C6 (t1 : List Char) (d : List (List Char × Json)) (q a : List Char)
    (c2 : CallOutcome)
    (h1 : geminiExtract t1 = some (.obj d))
    (hq : lookupLast d "follow_up_question".data = some (.str q)) :
    (method2_ai_followup (.ok t1) a c2).2 = [finalPrompt q a] ∧
    occursIn q (finalPrompt q a) = true ∧
    occursIn a (finalPrompt q a) = true := by
  refine ⟨?_, ?_, ?_⟩
  · rw [method2_trace_obj t1 d a c2 h1, hq]
    rfl
  · have hshape : finalPrompt q a
        = finalPromptPre ++ (q ++ (finalPromptMid ++ a ++ finalPromptSuf)) := by
      simp [finalPrompt, List.append_assoc]
    rw [hshape]
    exact occursIn_sandwich _ _ _
  · have hshape : finalPrompt q a
        = (finalPromptPre ++ q ++ finalPromptMid) ++ (a ++ finalPromptSuf) := by
      simp [finalPrompt, List.append_assoc]
    rw [hshape]
    exact occursIn_sandwich _ _ _

/-- C6 witness: the spec's scripted clarification answer. -/
theorem claim_C6_witness :
    (method2_ai_followup (.ok t6) ans6 (.raised "down".data)).2
      = [finalPrompt "What material is on the floor?".data ans6] ∧
    occursIn "What material is on the floor?".data
      (finalPrompt "What material is on the floor?".data ans6) = true ∧
    occursIn ans6 (finalPrompt "What material is on the floor?".data ans6) = true :=
  claim_C6 t6 d6 "What material is on the floor?".data ans6 (.raised "down".data)
    (by rfl) (by rfl)

/-- C1 counterexample: the single-pass assessor does not gate the mode on the
confidence tier.  On a reply declaring `mode = "auto_fill"` together with
`confidence_level = "low"`, the result asserts AutoFill even though the
parsed confidence is "low" — so "AutoFill exactly when confidenceLevel is
not low/error/missing" is false as stated. -/
theorem claim_C1_counterexample :
    ¬ ((modeOf (analyze_hazard_image (stdMeta 0 "gpt-4o".data (.obj [])) (.ok c1reply))
          = some (.str "auto_fill".data)) ↔
       (confOf (analyze_hazard_image (stdMeta 0 "gpt-4o".data (.obj [])) (.ok c1reply))
          ≠ some (.str "low".data) ∧
        confOf (analyze_hazard_image (stdMeta 0 "gpt-4o".data (.obj [])) (.ok c1reply))
          ≠ some (.str "error".data) ∧
        confOf (analyze_hazard_image (stdMeta 0 "gpt-4o".data (.obj [])) (.ok c1reply))
          ≠ none)) := by
  intro hiff
  have hmode : modeOf (analyze_hazard_image (stdMeta 0 "gpt-4o".data (.obj [])) (.ok c1reply))
      = some (.str "auto_fill".data) := rfl
  have hconf : confOf (analyze_hazard_image (stdMeta 0 "gpt-4o".data (.obj [])) (.ok c1reply))
      = some (.str "low".data) := rfl
  exact (hiff.mp hmode).1 hconf

/-- C1 (amended): the single-pass assessor reports the model-declared mode
and confidence verbatim whenever the reply parses to a dict (no confidence
gating: AutoFill is asserted exactly when the reply's own `mode` field says
so, regardless of `confidence_level`); when the reply is unparseable, parses
to a non-dict, or the call raises, both mode and confidence are "error" —
never AutoFill. -/
theorem claim_C1_amended (ts : ℚ) (mdl : List Char) (usage : Json) (call : CallOutcome) :
    modeOf (analyze_hazard_image (stdMeta ts mdl usage) call) = singlePassMode call ∧
    confOf (analyze_hazard_image (stdMeta ts mdl usage) call) = singlePassConf call := by
  cases call with
  | raised m => exact ⟨rfl, rfl⟩
  | ok t =>
    unfold analyze_hazard_image singlePassMode singlePassConf openaiExtract
    dsimp only
    cases hj : jsonLoads (openaiStrip (pyStrip t)) with
    | none => exact ⟨rfl, rfl⟩
    | some j =>
      cases j with
      | obj kvs =>
        have hmeta_mode : lookupLast (stdMeta ts mdl usage) "mode".data = none := rfl
        have hmeta_conf :
            lookupLast (stdMeta ts mdl usage) "confidence_level".data = none := rfl
        constructor
        · show lookupLast (kvs ++ stdMeta ts mdl usage) "mode".data
            = lookupLast kvs "mode".data
          rw [lookupLast_append, hmeta_mode]
        · show lookupLast (kvs ++ stdMeta ts mdl usage) "confidence_level".data
            = lookupLast kvs "confidence_level".data
          rw [lookupLast_append, hmeta_conf]
      | str s => exact ⟨rfl, rfl⟩
      | num n => exact ⟨rfl, rfl⟩
      | bool b => exact ⟨rfl, rfl⟩
      | null => exact ⟨rfl, rfl⟩
      | arr xs => exact ⟨rfl, rfl⟩

/-- C2 counterexample: at the Gemini follow-up site, a reply that is not
valid JSON yields the fixed error record of lines 231-238, which does not
contain the raw offending reply text anywhere (it is only printed) — so
"each extraction site returns a record that includes the raw offending reply
text" is false as stated. -/
theorem claim_C2_counterexample :
    geminiExtract c2reply = none ∧
    (method2_ai_followup (.ok c2reply) "yes".data (.ok c2reply)).1
      = method2ParseErrorDict ∧
    objMentions c2reply
      (method2_ai_followup (.ok c2reply) "yes".data (.ok c2reply)).1 = false :=
  ⟨rfl, rfl, rfl⟩

/-- C2 (amended): for every reply that is not valid JSON after
fence-stripping, each extraction site catches the parse failure and returns
an error-marked record (no exception escapes, the functions being total on
such replies); the single-pass OpenAI site's record carries the
fence-stripped offending text as `raw_response`, but the Gemini follow-up
site's record is a fixed error dict that does not carry the raw text. -/
theorem claim_C2_amended (ts : ℚ) (mdl : List Char) (usage : Json)
    (t a : List Char) (c2 : CallOutcome) :
    (jsonLoads (openaiStrip (pyStrip t)) = none →
      Json.get (analyze_hazard_image (stdMeta ts mdl usage) (.ok t)) "raw_response".data
        = some (.str (openaiStrip (pyStrip t))) ∧
      (Json.get (analyze_hazard_image (stdMeta ts mdl usage) (.ok t)) "error".data).isSome
        = true ∧
      confOf (analyze_hazard_image (stdMeta ts mdl usage) (.ok t))
        = some (.str "error".data) ∧
      modeOf (analyze_hazard_image (stdMeta ts mdl usage) (.ok t))
        = some (.str "error".data)) ∧
    (geminiExtract t = none →
      (method2_ai_followup (.ok t) a c2).1 = method2ParseErrorDict ∧
      confOf method2ParseErrorDict = some (.str "error".data) ∧
      Json.get method2ParseErrorDict "raw_response".data = none) := by
  constructor
  · intro h
    unfold analyze_hazard_image
    dsimp only
    rw [h]
    exact ⟨rfl, rfl, rfl, rfl⟩
  · intro h
    refine ⟨?_, rfl, rfl⟩
    unfold method2_ai_followup
    dsimp only
    rw [h]

/-- C2 witness: both sites at a concrete non-JSON reply. -/
theorem claim_C2_witness :
    Json.get (analyze_hazard_image (stdMeta 0 [] .null) (.ok c2reply)) "raw_response".data
      = some (.str (openaiStrip (pyStrip c2reply))) ∧
    confOf method2ParseErrorDict = some (.str "error".data) :=
  ⟨((claim_C2_amended 0 [] .null c2reply "yes".data (.ok c2reply)).1 (by rfl)).1,
   ((claim_C2_amended 0 [] .null c2reply "yes".data (.ok c2reply)).2 (by rfl)).2.1⟩

/-- C4 counterexample: Method 1's parse-failure record carries no
`confidence_level` entry at all (and no raw text), so "every caught failure
is converted into a record carrying confidenceLevel = error together with
the raw offending text" is false as stated. -/
theorem claim_C4_counterexample :
    geminiExtract c4reply = none ∧
    confOf (method1_manual_input_with_ai "a".data "b".data "c".data (.ok c4reply)) = none ∧
    objMentions c4reply
      (method1_manual_input_with_ai "a".data "b".data "c".data (.ok c4reply)) = false :=
  ⟨rfl, rfl, rfl⟩

/-- C4 (amended): every extraction or transport failure caught inside a
single call is converted into an error-marked record and does not abort the
enclosing trial: the two-round assessor and the single-pass assessor mark
`confidence_level = "error"` (the single-pass also carrying the raw text on
parse failure, per C2), and the comparator marks `winner = "error"` with
zero scores; but Method 1's failure record carries only an `error` message
echoing the user's manual input — no `confidence_level` entry. -/
theorem claim_C4_amended :
    (∀ c a c2, geminiCallFails c →
        confOf (method2_ai_followup c a c2).1 = some (.str "error".data)) ∧
    (∀ (ts : ℚ) mdl usage c, openaiCallFails c →
        confOf (analyze_hazard_image (stdMeta ts mdl usage) c) = some (.str "error".data) ∧
        modeOf (analyze_hazard_image (stdMeta ts mdl usage) c) = some (.str "error".data)) ∧
    (∀ c, geminiCallFails c →
        Json.get (evaluate_accuracy c) "winner".data = some (.str "error".data) ∧
        Json.get (evaluate_accuracy c) "method1_accuracy".data = some (.num (intRat 0)) ∧
        Json.get (evaluate_accuracy c) "method2_accuracy".data = some (.num (intRat 0))) ∧
    (∀ uI uL uN c, geminiCallFails c →
        (Json.get (method1_manual_input_with_ai uI uL uN c) "error".data).isSome = true ∧
        confOf (method1_manual_input_with_ai uI uL uN c) = none) ∧
    (∀ uI uL uN a gI gL gN c1 f1 f2 jc, geminiCallFails c1 → geminiCallFails f1 →
        geminiCallFails jc →
        (run_single_benchmark (.present uI uL uN c1 f1 a f2 gI gL gN jc)).isSome
          = true) := by
  refine ⟨?_, ?_, ?_, ?_, ?_⟩
  · intro c a c2 hc
    cases c with
    | raised m => rfl
    | ok t =>
      have h : geminiExtract t = none := hc
      unfold method2_ai_followup
      dsimp only
      rw [h]
      rfl
  · intro ts mdl usage c hc
    cases c with
    | raised m => exact ⟨rfl, rfl⟩
    | ok t =>
      have h : jsonLoads (openaiStrip (pyStrip t)) = none := hc
      unfold analyze_hazard_image
      dsimp only
      rw [h]
      exact ⟨rfl, rfl⟩
  · intro c hc
    cases c with
    | raised m => exact ⟨rfl, rfl, rfl⟩
    | ok t =>
      have h : geminiExtract t = none := hc
      unfold evaluate_accuracy
      dsimp only
      rw [h]
      exact ⟨rfl, rfl, rfl⟩
  · intro uI uL uN c hc
    cases c with
    | raised m => exact ⟨rfl, rfl⟩
    | ok t =>
      have h : geminiExtract t = none := hc
      unfold method1_manual_input_with_ai
      dsimp only
      rw [h]
      exact ⟨rfl, rfl⟩
  · intro uI uL uN a gI gL gN c1 f1 f2 jc _ _ hjc
    cases jc with
    | raised m => rfl
    | ok t =>
      have h : geminiExtract t = none := hjc
      unfold run_single_benchmark evaluate_accuracy
      dsimp only
      rw [h]
      rfl

/-- C4 witness: each failing site at a concrete input. -/
theorem claim_C4_witness :
    confOf (method2_ai_followup (.ok c4reply) "x".data (.ok c4reply)).1
      = some (.str "error".data) ∧
    confOf (analyze_hazard_image (stdMeta 0 [] .null) (.ok c4reply))
      = some (.str "error".data) ∧
    Json.get (evaluate_accuracy (.ok c4reply)) "winner".data = some (.str "error".data) ∧
    (Json.get (method1_manual_input_with_ai "a".data "b".data "c".data (.ok c4reply))
        "error".data).isSome = true ∧
    (run_single_benchmark (.present "a".data "b".data "c".data (.ok c4reply) (.ok c4reply)
        "x".data (.ok c4reply) "g1".data "g2".data "g3".data (.ok c4reply))).isSome
      = true := by
  have hfail : geminiCallFails (.ok c4reply) := by
    show geminiExtract c4reply = none
    rfl
  have hfail2 : openaiCallFails (.ok c4reply) := by
    show openaiExtract c4reply = none
    rfl
  exact ⟨claim_C4_amended.1 (.ok c4reply) "x".data (.ok c4reply) hfail,
    (claim_C4_amended.2.1 0 [] .null (.ok c4reply) hfail2).1,
    (claim_C4_amended.2.2.1 (.ok c4reply) hfail).1,
    (claim_C4_amended.2.2.2.1 "a".data "b".data "c".data (.ok c4reply) hfail).1,
    claim_C4_amended.2.2.2.2 "a".data "b".data "c".data "x".data "g1".data "g2".data
      "g3".data (.ok c4reply) (.ok c4reply) (.ok c4reply) (.ok c4reply) hfail hfail hfail⟩

/-- The winner field is "method1"/"method2"/"tie" exactly by strict
comparison of the two averages. -/
theorem winnerOf_spec (a1 a2 : ℚ) :
    (winnerOf a1 a2 = "tie".data ↔ a1 = a2) ∧
    (winnerOf a1 a2 = "method1".data ↔ a2 < a1) ∧
    (winnerOf a1 a2 = "method2".data ↔ a1 < a2) := by
  unfold winnerOf
  by_cases h1 : a1 > a2
  · rw [if_pos h1]
    exact ⟨⟨fun hx => absurd hx (by decide), fun hx => absurd h1 (by rw [hx]; exact lt_irrefl _)⟩,
      ⟨fun _ => h1, fun _ => rfl⟩,
      ⟨fun hx => absurd hx (by decide), fun hx => (lt_asymm hx h1).elim⟩⟩
  · rw [if_neg h1]
    by_cases h2 : a2 > a1
    · rw [if_pos h2]
      exact ⟨⟨fun hx => absurd hx (by decide), fun hx => absurd h2 (by rw [hx]; exact lt_irrefl _)⟩,
        ⟨fun hx => absurd hx (by decide), fun hx => (lt_asymm hx h2).elim⟩,
        ⟨fun _ => h2, fun _ => rfl⟩⟩
    · rw [if_neg h2]
      have heq : a1 = a2 := le_antisymm (not_lt.mp h1) (not_lt.mp h2)
      exact ⟨⟨fun _ => heq, fun _ => rfl⟩,
        ⟨fun hx => absurd hx (by decide), fun hx => absurd hx h1⟩,
        ⟨fun hx => absurd hx (by decide), fun hx => absurd hx h2⟩⟩

/-- C5: when extraction of the judge's reply fails (or the judge call
raises), the comparator returns the zero-for-both error ScoreResult, and the
aggregator still counts that trial: it appears in `total_tests` and
contributes exactly one `0` to each strategy's score list, rather than being
discarded. -/
theorem claim_C5 (pre post : List TrialSpec) (uI uL uN a gI gL gN : List Char)
    (c1 f1 f2 jc : CallOutcome) (hj : geminiCallFails jc) (s : Summary)
    (h : (run_full_benchmark
        (pre ++ .present uI uL uN c1 f1 a f2 gI gL gN jc :: post)).result = .ok s) :
    Json.get (evaluate_accuracy jc) "winner".data = some (.str "error".data) ∧
    Json.get (evaluate_accuracy jc) "method1_accuracy".data = some (.num (intRat 0)) ∧
    Json.get (evaluate_accuracy jc) "method2_accuracy".data = some (.num (intRat 0)) ∧
    s.total_tests = (pre.filterMap run_single_benchmark).length + 1
        + (post.filterMap run_single_benchmark).length ∧
    s.method1_scores
      = (pre.filterMap run_single_benchmark).map (trialScore "method1_accuracy".data)
        ++ .num (intRat 0)
          :: (post.filterMap run_single_benchmark).map (trialScore "method1_accuracy".data) ∧
    s.method2_scores
      = (pre.filterMap run_single_benchmark).map (trialScore "method2_accuracy".data)
        ++ .num (intRat 0)
          :: (post.filterMap run_single_benchmark).map (trialScore "method2_accuracy".data) := by
  obtain ⟨m, hm⟩ : ∃ m, evaluate_accuracy jc = evalErrDict m := by
    cases jc with
    | raised msg => exact ⟨_, rfl⟩
    | ok t =>
      have hx : geminiExtract t = none := hj
      refine ⟨"Evaluation failed: ".data ++ decodeErrMsg, ?_⟩
      unfold evaluate_accuracy
      dsimp only
      rw [hx]
  have hsingle : run_single_benchmark (.present uI uL uN c1 f1 a f2 gI gL gN jc)
      = some ⟨method1_manual_input_with_ai uI uL uN c1,
              (method2_ai_followup f1 a f2).1,
              .obj [("actual_issue".data, .str gI), ("actual_location".data, .str gL),
                    ("actual_note".data, .str gN),
                    ("source".data, .str "ground_truth".data)],
              evalErrDict m⟩ := by
    unfold run_single_benchmark
    dsimp only
    rw [hm]
    rfl
  obtain ⟨h5, n1, n2, hm1, hm2, hs⟩ := run_full_ok h
  refine ⟨by rw [hm]; rfl, by rw [hm]; rfl, by rw [hm]; rfl, ?_, ?_, ?_⟩
  · rw [hs]
    show ((pre ++ _ :: post).filterMap run_single_benchmark).length = _
    rw [List.filterMap_append, List.filterMap_cons_some hsingle]
    simp only [List.length_append, List.length_cons]
    omega
  · rw [hs]
    show ((pre ++ _ :: post).filterMap run_single_benchmark).map
        (trialScore "method1_accuracy".data) = _
    rw [List.filterMap_append, List.filterMap_cons_some hsingle, List.map_append,
      List.map_cons]
    rfl
  · rw [hs]
    show ((pre ++ _ :: post).filterMap run_single_benchmark).map
        (trialScore "method2_accuracy".data) = _
    rw [List.filterMap_append, List.filterMap_cons_some hsingle, List.map_append,
      List.map_cons]
    rfl

/-- C5 witness: a 5-trial run whose middle trial's judge call raises. -/
theorem claim_C5_witness :
    ∃ s : Summary,
      (run_full_benchmark
          ([plainTrial] ++ plainTrial :: [plainTrial, plainTrial, plainTrial])).result
        = .ok s ∧
      s.method1_scores
        = ([plainTrial].filterMap run_single_benchmark).map
            (trialScore "method1_accuracy".data)
          ++ .num (intRat 0)
            :: ([plainTrial, plainTrial, plainTrial].filterMap run_single_benchmark).map
                (trialScore "method1_accuracy".data) := by
  refine ⟨_, rfl, ?_⟩
  exact (claim_C5 [plainTrial] [plainTrial, plainTrial, plainTrial]
    "a".data "b".data "c".data "x".data "gtA".data "gtB".data "gtC".data
    (.raised "down".data) (.raised "down".data) (.raised "down".data)
    (.raised "down".data) trivial _ rfl).2.2.2.2.1

/-- C7: each strategy's mean accuracy is the arithmetic mean (in exact
rationals, standing in for Python floats) over the completed trials only, 0
when no trial completed; the winner is determined by strict comparison of
the two means, `"tie"` exactly when they are equal.  On the spec's example
scores [[80,90],[70,95],[100,85],[60,70],[90,88]] the means are 80 and
428/5 = 85.6 and the winner is method 2 (strategy B). -/
theorem claim_C7 :
    (∀ specs (s : Summary) (n1 n2 : List ℚ),
        (run_full_benchmark specs).result = .ok s →
        (scoresOf specs "method1_accuracy".data).mapM asNum? = some n1 →
        (scoresOf specs "method2_accuracy".data).mapM asNum? = some n2 →
        s.method1_average = (if n1.isEmpty then (0 : ℚ) else n1.sum / n1.length) ∧
        s.method2_average = (if n2.isEmpty then (0 : ℚ) else n2.sum / n2.length) ∧
        (s.winner = "tie".data ↔ s.method1_average = s.method2_average) ∧
        (s.winner = "method1".data ↔ s.method2_average < s.method1_average) ∧
        (s.winner = "method2".data ↔ s.method1_average < s.method2_average)) ∧
    (∃ s : Summary, (run_full_benchmark demoSpecs).result = .ok s ∧
        s.method1_average = 80 ∧ s.method2_average = 428 / 5 ∧
        s.winner = "method2".data) ∧
    (∃ s : Summary, (run_full_benchmark allMissing).result = .ok s ∧
        s.total_tests = 0 ∧ s.method1_average = 0 ∧ s.method2_average = 0 ∧
        s.winner = "tie".data) := by
  have hgen : ∀ specs (s : Summary) (n1 n2 : List ℚ),
      (run_full_benchmark specs).result = .ok s →
      (scoresOf specs "method1_accuracy".data).mapM asNum? = some n1 →
      (scoresOf specs "method2_accuracy".data).mapM asNum? = some n2 →
      s.method1_average = (if n1.isEmpty then (0 : ℚ) else n1.sum / n1.length) ∧
      s.method2_average = (if n2.isEmpty then (0 : ℚ) else n2.sum / n2.length) ∧
      (s.winner = "tie".data ↔ s.method1_average = s.method2_average) ∧
      (s.winner = "method1".data ↔ s.method2_average < s.method1_average) ∧
      (s.winner = "method2".data ↔ s.method1_average < s.method2_average) := by
    intro specs s n1 n2 h hn1 hn2
    obtain ⟨h5, n1', n2', hm1, hm2, hs⟩ := run_full_ok h
    rw [hn1] at hm1
    rw [hn2] at hm2
    obtain rfl : n1' = n1 := Option.some.inj hm1.symm
    obtain rfl : n2' = n2 := Option.some.inj hm2.symm
    rw [hs]
    refine ⟨rfl, rfl, ?_, ?_, ?_⟩
    · exact (winnerOf_spec _ _).1
    · exact (winnerOf_spec _ _).2.1
    · exact (winnerOf_spec _ _).2.2
  refine ⟨hgen, ?_, ?_⟩
  · refine ⟨_, rfl, ?_⟩
    have h := hgen demoSpecs _
      [intRat 80, intRat 70, intRat 100, intRat 60, intRat 90]
      [intRat 90, intRat 95, intRat 85, intRat 70, intRat 88] rfl rfl rfl
    refine ⟨?_, ?_, ?_⟩
    · rw [h.1]
      norm_num [intRat]
    · rw [h.2.1]
      norm_num [intRat]
    · refine (h.2.2.2.2).mpr ?_
      rw [h.1, h.2.1]
      norm_num [intRat]
  · exact ⟨_, rfl, rfl, rfl, rfl, rfl⟩

/-- C7 witness: the general mean/winner characterisation applied to the
all-skipped run (no completed trials, means 0). -/
theorem claim_C7_witness :
    ∃ s : Summary, (run_full_benchmark allMissing).result = .ok s ∧
      s.method1_average
        = (if ([] : List ℚ).isEmpty then (0 : ℚ)
           else ([] : List ℚ).sum / ([] : List ℚ).length) ∧
      (s.winner = "tie".data ↔ s.method1_average = s.method2_average) := by
  refine ⟨_, rfl, ?_, ?_⟩
  · exact (claim_C7.1 allMissing _ [] [] rfl rfl rfl).1
  · exact (claim_C7.1 allMissing _ [] [] rfl rfl rfl).2.2.1

/-- C8: called with a list of image paths whose length is not 5, the full
benchmark raises its ValueError before issuing any model call (zero calls
made); with exactly 5 paths that error is never raised. -/
theorem claim_C8 (specs : List TrialSpec) :
    (specs.length ≠ 5 →
        run_full_benchmark specs = ⟨.error .valueError, 0⟩) ∧
    (specs.length = 5 →
        (run_full_benchmark specs).result ≠ .error .valueError) := by
  constructor
  · intro h
    unfold run_full_benchmark
    rw [if_neg h]
  · intro h5 hcontra
    unfold run_full_benchmark at hcontra
    rw [if_pos h5] at hcontra
    cases hm1 : (scoresOf specs "method1_accuracy".data).mapM asNum? with
    | none =>
      rw [hm1] at hcontra
      exact RunError.noConfusion (Except.error.inj hcontra)
    | some n1 =>
      cases hm2 : (scoresOf specs "method2_accuracy".data).mapM asNum? with
      | none =>
        rw [hm1, hm2] at hcontra
        exact RunError.noConfusion (Except.error.inj hcontra)
      | some n2 =>
        rw [hm1, hm2] at hcontra
        exact Except.noConfusion hcontra

/-- C8 witness: four paths abort with zero calls; five do not raise the
ValueError. -/
theorem claim_C8_witness :
    run_full_benchmark fourSpecs = ⟨.error .valueError, 0⟩ ∧
    (run_full_benchmark allMissing).result ≠ .error .valueError :=
  ⟨(claim_C8 fourSpecs).1 (by decide), (claim_C8 allMissing).2 (by decide)⟩

/-- C9: a trial whose image path does not exist aborts that trial only — the
aggregator skips it and continues — and the reported `total_tests` equals
the number of trials actually completed; in particular a 5-trial run with
one missing path reports `total_tests = 4`. -/
theorem claim_C9 :
    (∀ specs (s : Summary), (run_full_benchmark specs).result = .ok s →
        s.total_tests = specs.countP (fun t => (run_single_benchmark t).isSome)) ∧
    (∃ s : Summary, (run_full_benchmark nineSpecs).result = .ok s ∧
        s.total_tests = 4) := by
  constructor
  · intro specs s h
    obtain ⟨h5, n1, n2, hm1, hm2, hs⟩ := run_full_ok h
    rw [hs]
    exact length_filterMap_eq_countP _ _
  · exact ⟨_, rfl, rfl⟩

/-- C9 witness: the completed-trial count characterisation at the concrete
run with one missing path. -/
theorem claim_C9_witness :
    ∃ s : Summary, (run_full_benchmark nineSpecs).result = .ok s ∧
      s.total_tests = nineSpecs.countP (fun t => (run_single_benchmark t).isSome) :=
  ⟨_, rfl, claim_C9.1 nineSpecs _ rfl⟩

end HazardBench
